import Mathlib

/-!
Verification of the Prof-Tech MVAI Telegram bot (src/mvai.js) against its
natural-language specification.  The JavaScript source is shallowly embedded:
strings are `String`/`List Char`, the regex-replace chains are modelled by
executable matcher functions (one per regex, faithful to the source pattern,
including the `/g` and `/i` flags and JS alternation order), the provider
fallback loop becomes a fold over a list of provider outcomes, and the
JSON user store becomes an association list.
-/

namespace ProfTechMVAI

/-! ## Character constants

Some characters of the source (straight apostrophe, backtick, braces, curly
quotes) are built from code points to keep the file free of delicate literal
characters.  `sq` is U+0027, `bq` is U+0060, `curlyApos` is U+2019 (the right
single quotation mark used in the default reply at mvai.js:478), `ldq`/`rdq`
are U+201C/U+201D (the curly double quotes of the primary chain at
mvai.js:498). -/

def sq : Char := Char.ofNat 39

def bq : Char := Char.ofNat 96

def lbraceCh : Char := Char.ofNat 123

def rbraceCh : Char := Char.ofNat 125

def curlyApos : Char := Char.ofNat 8217

def ldq : Char := Char.ofNat 8220

def rdq : Char := Char.ofNat 8221

def sqStr : String := String.mk [sq]

def curlyAposStr : String := String.mk [curlyApos]

/-- Characters of the MarkdownV2 escaping class in `escapeMarkdownV2`
(mvai.js:59-61): the regex class is `[_*[\]()~`>#+=|{}.!-]`.  Note that the
backslash itself is not in the class. -/
def mdReserved (c : Char) : Bool :=
  ([Char.ofNat 95, Char.ofNat 42, Char.ofNat 91, Char.ofNat 93, Char.ofNat 40,
    Char.ofNat 41, Char.ofNat 126, bq, Char.ofNat 62, Char.ofNat 35,
    Char.ofNat 43, Char.ofNat 61, Char.ofNat 124, lbraceCh, rbraceCh,
    Char.ofNat 46, Char.ofNat 33, Char.ofNat 45]).contains c

/-- `escapeMarkdownV2` (mvai.js:59-61) on character lists: prepend a
backslash before every character of the reserved class. -/
def escList : List Char → List Char
  | [] => []
  | c :: cs => if mdReserved c then Char.ofNat 92 :: c :: escList cs else c :: escList cs

/-- `escapeMarkdownV2` (mvai.js:59-61) on strings. -/
def escapeMarkdownV2 (s : String) : String := String.mk (escList s.data)

/-- Remove the inserted escape markers: a backslash immediately followed by a
reserved character is dropped (keeping the character); every other character
is kept.  This is the inverse direction of `escList`. -/
def stripEsc : List Char → List Char
  | [] => []
  | [c] => [c]
  | a :: b :: rest =>
    if a == Char.ofNat 92 && mdReserved b then b :: stripEsc rest
    else a :: stripEsc (b :: rest)

/-! ## A small matcher framework for the source's regex-replace chains

Every `.replace(/re/g…, rep)` of the source is modelled by a matcher
`List Char → Option Nat` that, at a given position, returns the length of the
match of `re` anchored there (`none` when `re` does not match at that
position), together with the generic global-replacement scanner `replaceG`:
scan left to right, replace the leftmost match, continue after the replaced
segment without rescanning the replacement — exactly the semantics of a
JavaScript global replace.  Matchers for `/i` patterns compare characters
through `Char.toLower` (all pattern letters are ASCII, where JavaScript
case-insensitive matching coincides with ASCII lowercasing). -/

/-- Case-insensitive anchored literal match: returns the number of characters
consumed (the pattern length) when the pattern is a case-insensitive prefix
of the text. -/
def litCIAt : List Char → List Char → Option Nat
  | [], _ => some 0
  | _ :: _, [] => none
  | p :: ps, c :: cs =>
    if p.toLower == c.toLower then (litCIAt ps cs).map (· + 1) else none

/-- Ordered alternation of literal alternatives, as in a JS regex: the first
alternative that matches at the position wins. -/
def altAt : List (List Char) → List Char → Option Nat
  | [], _ => none
  | p :: ps, s =>
    match litCIAt p s with
    | some n => some n
    | none => altAt ps s

/-- JavaScript `\s` (whitespace class). -/
def isJsSpace (c : Char) : Bool :=
  let n := c.toNat
  n == 9 || n == 10 || n == 11 || n == 12 || n == 13 || n == 32 || n == 160 ||
  n == 5760 || (8192 ≤ n && n ≤ 8202) || n == 8232 || n == 8233 ||
  n == 8239 || n == 8287 || n == 12288 || n == 65279

/-- JavaScript line terminators (the characters `.` does not match). -/
def isLineTerm (c : Char) : Bool :=
  c == Char.ofNat 10 || c == Char.ofNat 13 || c == Char.ofNat 8232 || c == Char.ofNat 8233

/-- Number of leading `\s` characters. -/
def leadingWs : List Char → Nat
  | [] => 0
  | c :: cs => if isJsSpace c then leadingWs cs + 1 else 0

/-- Backtracking tail of `Gifted\s*AI`: try to read `AI` after `j` whitespace
characters, for `j` descending from the greedy maximum (JS `*` is greedy and
backtracks one character at a time). Returns `j + 2` on success. -/
def wsThenAI (rest : List Char) : Nat → Option Nat
  | 0 => if (litCIAt [Char.ofNat 65, Char.ofNat 73] rest).isSome then some 2 else none
  | j + 1 =>
    if (litCIAt [Char.ofNat 65, Char.ofNat 73] (rest.drop (j + 1))).isSome then some (j + 3)
    else wsThenAI rest j

/-- Matcher for the alternative `Gifted\s*AI` of the first primary rule. -/
def giftedAIAt (s : List Char) : Option Nat :=
  match litCIAt "Gifted".data s with
  | none => none
  | some k =>
    let rest := s.drop k
    (wsThenAI rest (leadingWs rest)).map (k + ·)

/-- Lazy tail `.*?[\\.\\n]` of the created-by rule (mvai.js:497).  The source
character class is literally `[\\.\\n]`, i.e. a backslash, a dot, and the
letter `n` (not a newline); with the `/i` flag the letter also matches `N`.
The lazy `.*?` consumes the shortest run of non-line-terminator characters
before a class character. -/
def lazyClass4 : List Char → Option Nat
  | [] => none
  | c :: cs =>
    if c == Char.ofNat 92 || c == Char.ofNat 46 || c.toLower == Char.ofNat 110 then some 1
    else if isLineTerm c then none
    else (lazyClass4 cs).map (· + 1)

/-- Pattern fragment helper: `a` + straight apostrophe + `b`. -/
def apostr (a b : String) : List Char := a.data ++ sq :: b.data

/-! ### The five primary brand rules (mvai.js:492-499) -/

/-- Rule 1 pattern `/Prof-Tech MVAI|Gifted\s*AI|ChatGPT|GiftedTech|OpenAI/gi`,
alternatives in source order. -/
def rule1At (s : List Char) : Option Nat :=
  match litCIAt "Prof-Tech MVAI".data s with
  | some n => some n
  | none =>
    match giftedAIAt s with
    | some n => some n
    | none => altAt ["ChatGPT".data, "GiftedTech".data, "OpenAI".data] s

/-- Rule 2 pattern `/Cool Shot Designs\/Tech/gi`. -/
def rule2At (s : List Char) : Option Nat :=
  litCIAt "Cool Shot Designs/Tech".data s

/-- Rule 3 pattern `/I['’`]?m an AI language model/gi` (the optional class
holds the straight apostrophe, the curly apostrophe and a backtick; `?` is
greedy, so the variant with the extra character is tried first). -/
def rule3At : List Char → Option Nat
  | [] => none
  | c :: cs =>
    if c.toLower == Char.ofNat 105 then
      let tail3 := "m an AI language model".data
      let withOpt : Option Nat :=
        match cs with
        | [] => none
        | d :: ds =>
          if d == sq || d == curlyApos || d == bq then
            (litCIAt tail3 ds).map (· + 2)
          else none
      match withOpt with
      | some n => some n
      | none => (litCIAt tail3 cs).map (· + 1)
    else none

/-- Rule 4 pattern `/I was created by.*?[\\.\\n]/gi`. -/
def rule4At (s : List Char) : Option Nat :=
  match litCIAt "I was created by".data s with
  | none => none
  | some k => (lazyClass4 (s.drop k)).map (k + ·)

/-- Rule 5 pattern `/[“”]/g` (curly double quotes). -/
def rule5At : List Char → Option Nat
  | [] => none
  | c :: _ => if c == ldq || c == rdq then some 1 else none

/-! ### Global replacement -/

/-- Fuel-driven global replace: at each position try the matcher; on a match
of length `n + 1` emit the replacement and continue after the match, else
keep the character and move one position right.  `fuel` only serves
structural recursion; every step consumes at least one character, so any
`fuel > length` is exact (see `replaceG`). -/
def replaceGFuel (m : List Char → Option Nat) (rep : List Char) : Nat → List Char → List Char
  | 0, l => l
  | _, [] => []
  | fuel + 1, c :: cs =>
    match m (c :: cs) with
    | some (n + 1) => rep ++ replaceGFuel m rep fuel (cs.drop n)
    | _ => c :: replaceGFuel m rep fuel cs

/-- Global replace (JS `String.prototype.replace` with a `/g` regex). -/
def replaceG (m : List Char → Option Nat) (rep : List Char) (l : List Char) : List Char :=
  replaceGFuel m rep (l.length + 1) l

/-- Does the matcher match (with positive length) anywhere in the list? -/
def hasMatchB (m : List Char → Option Nat) : List Char → Bool
  | [] => false
  | c :: cs =>
    (match m (c :: cs) with
     | some (_ + 1) => true
     | _ => false) || hasMatchB m cs

/-! ### The primary sanitizer chain (mvai.js:492-499) -/

/-- Replacement of rule 3: `"I'm Cool Shot AI, your intelligent assistant"`. -/
def rep3 : List Char := apostr "I" "m Cool Shot AI, your intelligent assistant"

/-- Replacement of rule 4: `"I was created by Cool Shot Systems.\n"` (with a
real newline). -/
def rep4 : List Char := "I was created by Cool Shot Systems.\n".data

/-- The five chained `.replace` calls applied to a primary provider response
(mvai.js:492-499), in source order. -/
def sanitizePrimary (l : List Char) : List Char :=
  replaceG rule5At [Char.ofNat 34]
    (replaceG rule4At rep4
      (replaceG rule3At rep3
        (replaceG rule2At "Cool Shot Systems".data
          (replaceG rule1At "Cool Shot AI".data l))))

/-- String version of the primary sanitizer. -/
def sanitizePrimaryStr (s : String) : String := String.mk (sanitizePrimary s.data)

/-! ### The Gemini sanitizer chains

`callGeminiAPI` (mvai.js:370-377) applies one replace chain before returning,
and the text handler's fallback branch (mvai.js:522-528) applies a second
chain to the returned result. -/

/-- Pattern `/I was (created|developed|made|built) by Google/gi`.  The four
verb alternatives begin with distinct letters, so JS backtracking never
revisits the group. -/
def createdByGoogleAt (s : List Char) : Option Nat :=
  match litCIAt "I was ".data s with
  | none => none
  | some k =>
    match altAt ["created".data, "developed".data, "made".data, "built".data] (s.drop k) with
    | none => none
    | some m => (litCIAt " by Google".data ((s.drop k).drop m)).map (fun j => k + m + j)

/-- Pattern `/Google AI|Google's AI|Gemini AI/gi`. -/
def googleAIAt (s : List Char) : Option Nat :=
  altAt ["Google AI".data, apostr "Google" "s AI", "Gemini AI".data] s

/-- First inner rule `/Google|Gemini|Bard|I'm an AI assistant|I'm a large
language model/gi` of `callGeminiAPI` (mvai.js:373). -/
def gemInner1At (s : List Char) : Option Nat :=
  altAt ["Google".data, "Gemini".data, "Bard".data, apostr "I" "m an AI assistant",
    apostr "I" "m a large language model"] s

/-- Fourth inner rule `/I'm here to help/gi` of `callGeminiAPI` (mvai.js:376). -/
def hereToHelpAt (s : List Char) : Option Nat :=
  litCIAt (apostr "I" "m here to help") s

/-- The replace chain inside `callGeminiAPI` (mvai.js:373-376), in source
order. -/
def sanitizeGeminiInner (l : List Char) : List Char :=
  replaceG hereToHelpAt (apostr "I" "m Cool Shot AI, here to help")
    (replaceG googleAIAt "Cool Shot AI".data
      (replaceG createdByGoogleAt "I was created by Cool Shot Systems".data
        (replaceG gemInner1At (apostr "I" "m Cool Shot AI") l)))

/-- First outer rule `/Google|Gemini|Bard/gi` of the fallback branch
(mvai.js:524). -/
def gemOuter1At (s : List Char) : Option Nat :=
  altAt ["Google".data, "Gemini".data, "Bard".data] s

/-- Second outer rule `/I'm an AI assistant|I'm a large language model/gi`
(mvai.js:525). -/
def gemOuter2At (s : List Char) : Option Nat :=
  altAt [apostr "I" "m an AI assistant", apostr "I" "m a large language model"] s

/-- Fifth outer rule (mvai.js:528): the class `[""]` is written with two
straight double quotes in the source, so it just replaces a straight double
quote by itself. -/
def gemOuter5At : List Char → Option Nat
  | [] => none
  | c :: _ => if c == Char.ofNat 34 then some 1 else none

/-- The replace chain of the fallback branch (mvai.js:524-528), in source
order. -/
def sanitizeGeminiOuter (l : List Char) : List Char :=
  replaceG gemOuter5At [Char.ofNat 34]
    (replaceG googleAIAt "Cool Shot AI".data
      (replaceG createdByGoogleAt "I was created by Cool Shot Systems".data
        (replaceG gemOuter2At rep3
          (replaceG gemOuter1At "Cool Shot AI".data l))))

/-- String version of the fallback branch chain. -/
def sanitizeGeminiOuterStr (s : String) : String := String.mk (sanitizeGeminiOuter s.data)

/-! ## String utilities mirroring the JavaScript ones -/

/-- JS `String.prototype.trim` on character lists. -/
def jsTrim (l : List Char) : List Char :=
  (((l.dropWhile isJsSpace).reverse).dropWhile isJsSpace).reverse

/-- Character-exact prefix test. -/
def prefixB : List Char → List Char → Bool
  | [], _ => true
  | _ :: _, [] => false
  | p :: ps, c :: cs => p == c && prefixB ps cs

/-- JS `String.prototype.includes`: does `probe` occur as a contiguous
substring? -/
def containsChars (probe : List Char) : List Char → Bool
  | [] => probe.isEmpty
  | c :: cs => prefixB probe (c :: cs) || containsChars probe cs

/-- `includes` on strings. -/
def containsStr (s probe : String) : Bool := containsChars probe.data s.data

/-- JS `String.prototype.startsWith` on strings. -/
def startsWithStr (s probe : String) : Bool := prefixB probe.data s.data

/-! ## Configuration data (mvai.js:291-335) -/

/-- The role list (mvai.js:291-308). -/
def roles : List String :=
  ["Mathematician", "Econometician", "Doctor", "Brain Master", "Physicist", "Chemist", "Biologist",
   "Engineer", "Philosopher", "Psychologist", "Spiritual Advisor", "AI Researcher", "Teacher", "Professor",
   "Developer", "Data Scientist", "Statistician", "Entrepreneur", "Journalist", "History Expert", "Lawyer",
   "Accountant", "Investor", "Startup Mentor", "UX Designer", "Therapist", "Nutritionist", "Fitness Coach",
   "Poet", "Author", "Script Writer", "Public Speaker", "Game Developer", "Ethical Hacker", "Security Analyst",
   "DevOps Engineer", "Cloud Expert", "Geographer", "Astronomer", "Political Analyst", "Environmental Scientist",
   "AI Lawyer", "Robotics Engineer", "Medical Researcher", "Economist", "Agronomist", "Anthropologist",
   "Cryptographer", "Quantum Physicist", "Visionary", "Linguist", "AI Trainer", "Mobile Developer",
   "Web Developer", "Data Analyst", "System Admin", "Logician", "Neuroscientist", "Ecologist", "Marine Biologist",
   "Meteorologist", "Cybersecurity Expert", "Economics Tutor", "Healthcare Consultant", "Project Manager",
   "Content Creator", "SEO Expert", "Social Media Strategist", "Pharmacologist", "Dentist", "Veterinarian",
   "Music Theorist", "AI Ethicist", "Language Tutor", "Blockchain Developer", "Geneticist", "Psychiatrist",
   "UX Researcher", "Game Designer", "Legal Advisor", "Literary Critic", "Cultural Analyst", "Civil Engineer",
   "Mechanical Engineer", "Electrical Engineer", "AI Psychologist", "Film Critic", "Forensic Scientist",
   "Statistic Tutor", "AI Architect", "AI Philosopher", "Hardware Engineer", "Nutrition Coach", "Space Scientist",
   "Theologian"]

/-- A language entry (mvai.js:310-326). -/
structure Lang where
  code : String
  label : String
deriving DecidableEq

/-- The language list (mvai.js:310-326). -/
def languages : List Lang :=
  [⟨"en", "🇬🇧 English"⟩, ⟨"fr", "🇫🇷 French"⟩, ⟨"es", "🇪🇸 Spanish"⟩, ⟨"de", "🇩🇪 German"⟩,
   ⟨"ar", "🇸🇦 Arabic"⟩, ⟨"hi", "🇮🇳 Hindi"⟩, ⟨"yo", "🇳🇬 Yoruba"⟩, ⟨"ig", "🇳🇬 Igbo"⟩,
   ⟨"zh", "🇨🇳 Chinese"⟩, ⟨"ru", "🇷🇺 Russian"⟩, ⟨"ja", "🇯🇵 Japanese"⟩, ⟨"pt", "🇵🇹 Portuguese"⟩,
   ⟨"it", "🇮🇹 Italian"⟩, ⟨"tr", "🇹🇷 Turkish"⟩, ⟨"sw", "🇰🇪 Swahili"⟩]

/-- The five primary AI endpoints (mvai.js:329-335). -/
def aiAPIs : List String :=
  ["https://api.giftedtech.co.ke/api/ai/gpt4o",
   "https://api.giftedtech.co.ke/api/ai/geminiaipro",
   "https://api.giftedtech.co.ke/api/ai/meta-llama",
   "https://api.giftedtech.co.ke/api/ai/copilot",
   "https://api.giftedtech.co.ke/api/ai/ai"]

/-- `roles.includes(role) ? role : 'Brain Master'` (mvai.js:501). -/
def roleLabelOf (role : String) : String :=
  if roles.contains role then role else "Brain Master"

/-- `languages.find(l => l.code === lang)?.label || '🇬🇧 English'`
(mvai.js:502). -/
def langLabelOf (lang : String) : String :=
  match languages.find? (fun l => l.code == lang) with
  | some l => l.label
  | none => "🇬🇧 English"

/-! ## The text handler (mvai.js:391-561) -/

/-- Outcome of one primary endpoint HTTP attempt: `err` is a thrown error
(timeout, non-2xx, network failure); `reply r` is a 2xx JSON body whose
`result` field is `r` (`none` when the field is absent). -/
inductive ProviderOutcome
  | err
  | reply (result : Option String)
deriving DecidableEq

/-- The usable text of an attempt, following the source's `if (data.result)`
truthiness test: a thrown error, a missing `result` field, and an empty
`result` string all yield `none`. -/
def attemptResult : ProviderOutcome → Option String
  | .err => none
  | .reply none => none
  | .reply (some s) => if s.isEmpty then none else some s

/-- The `for (let url of aiAPIs)` loop (mvai.js:480-513) over the attempt
outcomes, in list order: returns the first usable result (the `break`) and
the number of providers actually invoked. -/
def runPrimaries : List ProviderOutcome → Option String × Nat
  | [] => (none, 0)
  | o :: os =>
    match attemptResult o with
    | some t => (some t, 1)
    | none => ((runPrimaries os).1, (runPrimaries os).2 + 1)

/-- The default reply initialiser (mvai.js:478).  Its apostrophe is the
curly U+2019. -/
def defaultReply : String :=
  "🤖 Sorry, I couldn" ++ curlyAposStr ++ "t generate a reply."

/-- The probe string of the two `response.includes(...)` guards
(mvai.js:516 and mvai.js:547).  Its apostrophe is the straight U+0027. -/
def includesProbe : String :=
  "Sorry, I couldn" ++ sqStr ++ "t generate a reply"

/-- The shared header of the formatted replies (mvai.js:504-505, 535-536,
551-552).  The source template literals use `\\|` and `\\n`, i.e. the
two-character sequences backslash-pipe and backslash-n. -/
def replyHeader (roleLabel langLabel time : String) : String :=
  "🤖 *Cool Shot AI* \\| *" ++ escapeMarkdownV2 roleLabel ++ "*\\n" ++
  "🌐 " ++ escapeMarkdownV2 langLabel ++ " \\| ⏰ " ++ time ++ "\\n\\n"

/-- A formatted success reply (mvai.js:504-507 and 535-538). -/
def formatReply (roleLabel langLabel time body : String) : String :=
  replyHeader roleLabel langLabel time ++ body ++ "\\n\\n" ++ "✨ _Powered by Cool Shot Systems_"

/-- The enhanced fallback message (mvai.js:551-558). -/
def enhancedFallbackMsg (roleLabel langLabel time : String) : String :=
  replyHeader roleLabel langLabel time ++
  "⚠️ I" ++ sqStr ++ "m currently experiencing technical difficulties with my AI processing\\. Please try again in a moment\\!\\n\\n" ++
  "💡 In the meantime, you can:\\n" ++
  "• Use /games for entertainment\\n" ++
  "• Use /tools for text utilities\\n" ++
  "• Use /help for command list\\n\\n" ++
  "✨ _Cool Shot Systems \\- Always here to help_"

/-- `callGeminiAPI` (mvai.js:349-385).  `configured` is the `geminiAI`
handle being non-null; `raw` is the text produced by the model call (`none`
when the HTTP call itself throws).  All throwing paths are `none`;
otherwise the inner replace chain is applied and the result trimmed. -/
def callGeminiAPI (configured : Bool) (raw : Option String) : Option String :=
  if configured then
    match raw with
    | none => none
    | some text =>
      if (jsTrim text.data).isEmpty then none
      else some (String.mk (jsTrim (sanitizeGeminiInner text.data)))
  else none

/-- Result of the normal-chat part of the text handler: the delivered text,
whether the Gemini fallback was invoked, and how many primary endpoints were
called. -/
structure HandlerOutcome where
  finalText : String
  geminiCalled : Bool
  primaryCalls : Nat
deriving DecidableEq

/-- The normal-chat AI response path of `bot.on('text')` (mvai.js:471-561):
primary loop, `includes`-guarded Gemini fallback, `includes`-guarded
enhanced fallback message.  `primaries` are the outcomes the five endpoints
would produce, `geminiRaw` the text Gemini would produce. -/
def handleText (primaries : List ProviderOutcome) (geminiConfigured : Bool)
    (geminiRaw : Option String) (role lang time : String) : HandlerOutcome :=
  let pr := runPrimaries primaries
  let roleLabel := roleLabelOf role
  let langLabel := langLabelOf lang
  let response :=
    match pr.1 with
    | some t => formatReply roleLabel langLabel time (escapeMarkdownV2 (sanitizePrimaryStr t))
    | none => defaultReply
  let fb := containsStr response includesProbe && geminiConfigured
  let step2 : String × Bool :=
    if fb then
      match callGeminiAPI geminiConfigured geminiRaw with
      | some t =>
        if t.isEmpty then (response, true)
        else (formatReply roleLabel langLabel time (escapeMarkdownV2 (sanitizeGeminiOuterStr t)), true)
      | none => (response, true)
    else (response, false)
  let final :=
    if containsStr step2.1 includesProbe then enhancedFallbackMsg roleLabel langLabel time
    else step2.1
  ⟨final, step2.2, pr.2⟩

/-- Routing of an incoming text message before the AI path
(mvai.js:397-469): pending support flag, `/support `, `/broadcast `, other
commands, and only then the normal chat AI response. -/
inductive Route
  | supportForward
  | supportCmd
  | broadcast
  | command
  | aiChat
deriving DecidableEq

/-- The route taken by `bot.on('text')` for a message `text` when the
per-user support flag is `awaitingSupport`. -/
def routeText (awaitingSupport : Bool) (text : String) : Route :=
  if awaitingSupport then .supportForward
  else if startsWithStr text "/support " then .supportCmd
  else if startsWithStr text "/broadcast " then .broadcast
  else if startsWithStr text "/" then .command
  else .aiChat

/-! ## `chunkArray` (mvai.js:1923-1928) -/

/-- Fuel-driven core of `chunkArray`: the source loop
`for (let i = 0; i < array.length; i += chunkSize) temp.push(array.slice(i, i + chunkSize))`.
Each step pushes `take k` and continues on `drop k`.  For `k ≥ 1` a fuel of
`array.length` bounds the number of iterations exactly; for `k = 0` the
source loop never terminates (the model then stops after `fuel` steps, a
case outside every claim). -/
def chunkGo (k : Nat) : Nat → List α → List (List α)
  | _, [] => []
  | 0, _ :: _ => []
  | n + 1, a :: l => (a :: l).take k :: chunkGo k n ((a :: l).drop k)

/-- `chunkArray` (mvai.js:1923-1928). -/
def chunkArray (array : List α) (chunkSize : Nat) : List (List α) :=
  chunkGo chunkSize array.length array

/-! ## The admin system (mvai.js:196-288) -/

/-- `RAYBEN_ID` (mvai.js:196). -/
def RAYBEN_ID : Int := 6649936329

/-- `isRayBen` (mvai.js:205-207). -/
def isRayBen (userId : Int) : Bool := userId == RAYBEN_ID

/-- A record of the `users` store (mvai.js:161-172, 267-278). -/
structure UserRec where
  id : Int
  username : Option String
  firstName : Option String
  lastName : Option String
  isAdmin : Bool
  firstSeen : String
  lastSeen : String
  messageCount : Nat
  commandCount : Nat
  notes : String
deriving DecidableEq

/-- The `users` object, keyed by the decimal string of the user id. -/
abbrev Users := List (String × UserRec)

/-- `users[key]` lookup. -/
def lookupUser : Users → String → Option UserRec
  | [], _ => none
  | (k, u) :: us, key => if k == key then some u else lookupUser us key

/-- In-place update of the `isAdmin` field of the record under `key`. -/
def setAdmin (us : Users) (key : String) (b : Bool) : Users :=
  us.map (fun p => if p.1 == key then (p.1, { p.2 with isAdmin := b }) else p)

/-- `users[key] = rec` (replace or append). -/
def setUser (us : Users) (key : String) (rec : UserRec) : Users :=
  match lookupUser us key with
  | some _ => us.map (fun p => if p.1 == key then (p.1, rec) else p)
  | none => us ++ [(key, rec)]

/-- JS `userId.toString()` for the integer ids. -/
def intKey (userId : Int) : String := toString userId

/-- The `{success, error}` result of the admin operations. -/
structure AdminResult where
  success : Bool
  error : Option String
deriving DecidableEq

/-- `promoteToAdmin` (mvai.js:220-237), as a pure function of the store
(its `saveUsers()` call is file I/O outside the store's semantics). -/
def promoteToAdmin (us : Users) (userId promotedBy : Int) : Users × AdminResult :=
  if !isRayBen promotedBy then
    (us, ⟨false, some "Only RayBen445 can promote users to admin"⟩)
  else
    match lookupUser us (intKey userId) with
    | none => (us, ⟨false, some "User not found in database"⟩)
    | some u =>
      if u.isAdmin then (us, ⟨false, some "User is already an admin"⟩)
      else (setAdmin us (intKey userId) true, ⟨true, none⟩)

/-- `demoteAdmin` (mvai.js:240-257). -/
def demoteAdmin (us : Users) (userId demotedBy : Int) : Users × AdminResult :=
  if !isRayBen demotedBy then
    (us, ⟨false, some "Only RayBen445 can demote admins"⟩)
  else if isRayBen userId then
    (us, ⟨false, some "RayBen445 cannot be demoted"⟩)
  else
    match lookupUser us (intKey userId) with
    | none => (us, ⟨false, some "User is not an admin"⟩)
    | some u =>
      if u.isAdmin then (setAdmin us (intKey userId) false, ⟨true, none⟩)
      else (us, ⟨false, some "User is not an admin"⟩)

/-- The primary-admin record created by `initializeAdminSystem`
(mvai.js:267-278); `now` stands for `new Date().toISOString()`. -/
def raybenRecord (now : String) : UserRec :=
  { id := RAYBEN_ID
    username := some "rayben445"
    firstName := some "RayBen445"
    lastName := none
    isAdmin := true
    firstSeen := now
    lastSeen := now
    messageCount := 0
    commandCount := 0
    notes := "Primary Admin - Creator of Cool Shot AI" }

/-- The store transformation of `initializeAdminSystem` (mvai.js:260-288)
after `loadUsers()`: create the primary admin record if absent, else force
its `isAdmin` flag. -/
def initializeAdminSystem (us : Users) (now : String) : Users :=
  match lookupUser us (intKey RAYBEN_ID) with
  | none => setUser us (intKey RAYBEN_ID) (raybenRecord now)
  | some u => if !u.isAdmin then setAdmin us (intKey RAYBEN_ID) true else us

/-- `isAdmin` (mvai.js:199-202) over the store. -/
def isAdminIn (us : Users) (userId : Int) : Bool :=
  match lookupUser us (intKey userId) with
  | some u => u.isAdmin
  | none => false

/-- No rule of the primary chain matches anywhere in the text (used to state
when the sanitizer chain is stable). -/
def noResidualMatch (l : List Char) : Bool :=
  !(hasMatchB rule1At l || hasMatchB rule2At l || hasMatchB rule3At l ||
    hasMatchB rule4At l || hasMatchB rule5At l)

/-! # Theorems -/

/-! ## Escaping (claim C8) -/

/-- `escList` maps a non-empty list to a non-empty list. -/
theorem escList_eq_nil_iff (cs : List Char) : escList cs = [] ↔ cs = [] := by
  cases cs with
  | nil => simp [escList]
  | cons c cs =>
    rw [escList]
    split <;> simp

/-- The first character produced by `escList` is never in the reserved class
(it is either a backslash, which the class omits, or an unreserved source
character). -/
theorem escList_head_unreserved {cs : List Char} {b : Char} {bs : List Char}
    (h : escList cs = b :: bs) : mdReserved b = false := by
  cases cs with
  | nil => simp [escList] at h
  | cons c cs =>
    rw [escList] at h
    split at h
    · have hb : b = Char.ofNat 92 := (List.cons.injEq _ _ _ _ ▸ h).1.symm
      subst hb
      decide
    · next hc =>
      have hb : b = c := (List.cons.injEq _ _ _ _ ▸ h).1.symm
      subst hb
      simpa using hc

/-- Removing the inserted escape markers from the escaped text recovers the
input exactly. -/
theorem stripEsc_escList : ∀ l : List Char, stripEsc (escList l) = l := by
  intro l
  induction l with
  | nil => rfl
  | cons c cs ih =>
    by_cases hr : mdReserved c
    · have he : escList (c :: cs) = Char.ofNat 92 :: c :: escList cs := by
        simp [escList, hr]
      rw [he, stripEsc]
      simp [hr, ih]
    · have he : escList (c :: cs) = c :: escList cs := by
        simp [escList, hr]
      rw [he]
      cases hcs : escList cs with
      | nil =>
        have : cs = [] := (escList_eq_nil_iff cs).mp hcs
        subst this
        rfl
      | cons b bs =>
        have hb := escList_head_unreserved hcs
        rw [stripEsc]
        simp only [hb, Bool.and_false, if_neg Bool.false_ne_true]
        rw [← hcs, ih]

/-- Claim C8: transport-markup escaping loses no content, and in the
pipeline it is applied to the already-sanitized text: stripping the escape
markers that `escapeMarkdownV2` inserts recovers the input exactly, and in
particular stripping them from the escaped body the handler builds
(`escapeMarkdownV2` applied to the output of `sanitizePrimaryStr`, exactly
the composition at mvai.js:492-499) recovers the sanitized — not the raw —
text. -/
theorem C8_escape_lossless (s : String) :
    stripEsc ((escapeMarkdownV2 s).data) = s.data ∧
    stripEsc ((escapeMarkdownV2 (sanitizePrimaryStr s)).data) = (sanitizePrimaryStr s).data := by
  exact ⟨stripEsc_escList s.data, stripEsc_escList (sanitizePrimaryStr s).data⟩

/-! ## Sanitizer idempotence (claims C5, C6) -/

/-- If a matcher matches nowhere in a list, the global replace leaves the
list unchanged (for any sufficient fuel). -/
theorem replaceGFuel_no_match {m : List Char → Option Nat} {rep : List Char} :
    ∀ fuel l, l.length < fuel → hasMatchB m l = false → replaceGFuel m rep fuel l = l := by
  intro fuel
  induction fuel with
  | zero => intro l hl _; omega
  | succ n ih =>
    intro l hl hm
    cases l with
    | nil => rfl
    | cons c cs =>
      rw [hasMatchB, Bool.or_eq_false_iff] at hm
      obtain ⟨hm1, hm2⟩ := hm
      have hlen : cs.length < n := by
        simpa using Nat.lt_of_succ_lt_succ hl
      rw [replaceGFuel]
      rcases hmc : m (c :: cs) with _ | k
      · show c :: replaceGFuel m rep n cs = c :: cs
        rw [ih cs hlen hm2]
      · cases k with
        | zero =>
          show c :: replaceGFuel m rep n cs = c :: cs
          rw [ih cs hlen hm2]
        | succ k =>
          rw [hmc] at hm1
          simp at hm1

/-- If a matcher matches nowhere, `replaceG` is the identity. -/
theorem replaceG_no_match {m : List Char → Option Nat} {rep l : List Char}
    (h : hasMatchB m l = false) : replaceG m rep l = l :=
  replaceGFuel_no_match (l.length + 1) l (Nat.lt_succ_self _) h

/-- Claim C5 (amended): the brand-rule chain is idempotent on every input
whose sanitized form triggers no rule any more — in particular re-applying
the chain to such sanitized text changes nothing.  (The unrestricted claim
is false, see `C5_counterexample`: the created-by rule's replacement text is
itself a trigger for that same rule.) -/
theorem C5_sanitize_idempotent_when_stable (l : List Char)
    (h : noResidualMatch (sanitizePrimary l) = true) :
    sanitizePrimary (sanitizePrimary l) = sanitizePrimary l := by
  rw [noResidualMatch] at h
  simp only [Bool.not_eq_true', Bool.or_eq_false_iff] at h
  obtain ⟨⟨⟨⟨h1, h2⟩, h3⟩, h4⟩, h5⟩ := h
  have hstep : sanitizePrimary (sanitizePrimary l) =
      replaceG rule5At [Char.ofNat 34]
        (replaceG rule4At rep4
          (replaceG rule3At rep3
            (replaceG rule2At "Cool Shot Systems".data
              (replaceG rule1At "Cool Shot AI".data (sanitizePrimary l))))) := rfl
  rw [hstep, replaceG_no_match h1, replaceG_no_match h2, replaceG_no_match h3,
    replaceG_no_match h4, replaceG_no_match h5]

/-- Witness for `C5_sanitize_idempotent_when_stable` at the concrete input
`"hello"`. -/
theorem C5_witness :
    noResidualMatch (sanitizePrimary "hello".data) = true ∧
    sanitizePrimary (sanitizePrimary "hello".data) = sanitizePrimary "hello".data :=
  ⟨by decide, C5_sanitize_idempotent_when_stable "hello".data (by decide)⟩

/-- Counterexample to claim C5 as stated: the chain is not idempotent.  On
`"I was created by X."` the created-by rule rewrites the text to
`"I was created by Cool Shot Systems.\n"`, and a second application matches
the replacement itself and appends another newline. -/
theorem C5_counterexample :
    sanitizePrimaryStr "I was created by X." = "I was created by Cool Shot Systems.\n" ∧
    sanitizePrimaryStr (sanitizePrimaryStr "I was created by X.") =
      "I was created by Cool Shot Systems.\n\n" ∧
    sanitizePrimaryStr (sanitizePrimaryStr "I was created by X.") ≠
      sanitizePrimaryStr "I was created by X." := by
  refine ⟨by decide, by decide, by decide⟩

/-- Counterexample to claim C6 as stated: the input
`"I was created by X."` contains a configured self-reference phrase, yet its
sanitized output still matches a configured pattern (the created-by rule
matches its own replacement text), so the output does not have zero
occurrences of every configured pattern. -/
theorem C6_counterexample :
    containsStr "I was created by X." "I was created by" = true ∧
    noResidualMatch (sanitizePrimaryStr "I was created by X.").data = false ∧
    hasMatchB rule4At (sanitizePrimaryStr "I was created by X.").data = true := by
  refine ⟨by decide, by decide, by decide⟩

/-- Claim C6 (amended): for inputs containing the configured competitor and
self-reference phrases other than the created-by phrase — here the spec's
examples `"I'm an AI language model"`, `"GiftedTech"`, `"OpenAI"`,
`"ChatGPT"` — the sanitized output triggers no configured pattern any more
and contains the canonical brand replacement `"Cool Shot AI"`. -/
theorem C6_branding_on_example_phrases :
    (sanitizePrimaryStr (String.mk (apostr "I" "m an AI language model built by GiftedTech")) =
      String.mk (apostr "I" "m Cool Shot AI, your intelligent assistant built by Cool Shot AI")) ∧
    noResidualMatch (sanitizePrimaryStr
      (String.mk (apostr "I" "m an AI language model built by GiftedTech"))).data = true ∧
    containsStr (sanitizePrimaryStr
      (String.mk (apostr "I" "m an AI language model built by GiftedTech"))) "Cool Shot AI" = true ∧
    sanitizePrimaryStr "Powered by OpenAI" = "Powered by Cool Shot AI" ∧
    noResidualMatch (sanitizePrimaryStr "Powered by OpenAI").data = true ∧
    containsStr (sanitizePrimaryStr "Powered by OpenAI") "Cool Shot AI" = true ∧
    sanitizePrimaryStr "ChatGPT said hello" = "Cool Shot AI said hello" ∧
    noResidualMatch (sanitizePrimaryStr "ChatGPT said hello").data = true ∧
    containsStr (sanitizePrimaryStr "ChatGPT said hello") "Cool Shot AI" = true := by
  refine ⟨by decide, by decide, by decide, by decide, by decide, by decide, by decide,
    by decide, by decide⟩

/-! ## The primary provider loop (claims C1, C4) -/

/-- Claim C1: when every provider before `o` fails and `o` yields a
non-empty result, the loop delivers exactly `o`'s text and has invoked
exactly the providers up to and including `o`; the providers after `o`
contribute nothing (the result does not depend on `post`, which the
statement quantifies over). -/
theorem C1_first_success_stops (pre post : List ProviderOutcome) (o : ProviderOutcome)
    (t : String) (hpre : ∀ p ∈ pre, attemptResult p = none)
    (ht : attemptResult o = some t) :
    runPrimaries (pre ++ o :: post) = (some t, pre.length + 1) := by
  induction pre with
  | nil => simp [runPrimaries, ht]
  | cons p ps ih =>
    have hp : attemptResult p = none := hpre p (List.mem_cons_self p ps)
    have ihh := ih (fun q hq => hpre q (List.mem_cons_of_mem p hq))
    simp [runPrimaries, hp, ihh]

/-- Witness for `C1_first_success_stops`: one failing provider, then a
successful one, then a provider that is never reached. -/
theorem C1_witness :
    (∀ p ∈ [ProviderOutcome.err], attemptResult p = none) ∧
    attemptResult (ProviderOutcome.reply (some "hi")) = some "hi" ∧
    runPrimaries [ProviderOutcome.err, ProviderOutcome.reply (some "hi"),
      ProviderOutcome.reply (some "ignored")] = (some "hi", 2) := by
  refine ⟨by decide, by decide, ?_⟩
  exact C1_first_success_stops [ProviderOutcome.err] [ProviderOutcome.reply (some "ignored")]
    (ProviderOutcome.reply (some "hi")) "hi" (by decide) (by decide)

/-- Claim C4: an individual provider failure is swallowed — the loop's
outcome on `o :: os` with `o` failing is the outcome on `os` (one more call
is recorded, nothing propagates); a 2xx body without the `result` field is
treated identically to a thrown network failure; and the loop's result is
empty exactly when every configured provider fails (only exhaustion produces
a failure outcome). -/
theorem C4_failure_isolation :
    (∀ o os, attemptResult o = none →
      runPrimaries (o :: os) = ((runPrimaries os).1, (runPrimaries os).2 + 1)) ∧
    attemptResult (ProviderOutcome.reply none) = attemptResult ProviderOutcome.err ∧
    (∀ os, (runPrimaries os).1 = none ↔ ∀ p ∈ os, attemptResult p = none) := by
  refine ⟨?_, rfl, ?_⟩
  · intro o os h
    simp [runPrimaries, h]
  · intro os
    induction os with
    | nil => simp [runPrimaries]
    | cons o os ih =>
      cases ho : attemptResult o with
      | some t => simp [runPrimaries, ho, List.forall_mem_cons]
      | none => simp [runPrimaries, ho, List.forall_mem_cons, ih]

/-- Witness for `C4_failure_isolation` at concrete lists of outcomes. -/
theorem C4_witness :
    attemptResult ProviderOutcome.err = none ∧
    runPrimaries [ProviderOutcome.err, ProviderOutcome.reply (some "ok")] =
      ((runPrimaries [ProviderOutcome.reply (some "ok")]).1,
        (runPrimaries [ProviderOutcome.reply (some "ok")]).2 + 1) ∧
    ((runPrimaries [ProviderOutcome.err, ProviderOutcome.reply none]).1 = none ↔
      ∀ p ∈ [ProviderOutcome.err, ProviderOutcome.reply none], attemptResult p = none) := by
  exact ⟨rfl, C4_failure_isolation.1 ProviderOutcome.err [ProviderOutcome.reply (some "ok")] rfl,
    C4_failure_isolation.2.2 [ProviderOutcome.err, ProviderOutcome.reply none]⟩

/-! ## The Gemini fallback and the apology payload (claims C2, C3)

The guard of the fallback branch (mvai.js:516) and of the enhanced apology
branch (mvai.js:547) tests `response.includes("Sorry, I couldn't generate a
reply")` with a straight apostrophe, but the default response initialiser
(mvai.js:478) spells `couldn’t` with the curly apostrophe U+2019, so when
every primary fails the probe never matches: the Gemini fallback is never
invoked and the enhanced apology is never produced — the user receives the
bare default reply. -/

/-- Claim C2 (code bug): with all five primaries failing and Gemini
configured and answering `"Hello, I am Gemini"`, the secondary is never
invoked (the claim requires exactly one invocation) and the delivered text
is the bare default reply; the root cause is that the `includes` probe does
not occur in the default reply. -/
theorem C2_gemini_fallback_dead :
    containsStr defaultReply includesProbe = false ∧
    (handleText [ProviderOutcome.err, ProviderOutcome.err, ProviderOutcome.err,
      ProviderOutcome.err, ProviderOutcome.err] true (some "Hello, I am Gemini")
      "Brain Master" "en" "12:00").geminiCalled = false ∧
    (handleText [ProviderOutcome.err, ProviderOutcome.err, ProviderOutcome.err,
      ProviderOutcome.err, ProviderOutcome.err] true (some "Hello, I am Gemini")
      "Brain Master" "en" "12:00").finalText = defaultReply := by
  refine ⟨by decide, by decide, by decide⟩

/-- Claim C3 (code bug): with all primaries and the secondary failing (here:
unconfigured), the handler does deliver a fixed string and no exception —
but it is the bare default reply, not the enhanced apology template of
mvai.js:551-558, which is unreachable dead code. -/
theorem C3_apology_payload_divergence :
    (handleText [ProviderOutcome.err, ProviderOutcome.err, ProviderOutcome.err,
      ProviderOutcome.err, ProviderOutcome.err] false none
      "Brain Master" "en" "12:00").finalText = defaultReply ∧
    defaultReply ≠ enhancedFallbackMsg "Brain Master" "🇬🇧 English" "12:00" := by
  refine ⟨by decide, by decide⟩

/-! ## Empty raw text (claim C7) -/

/-- The number of primary calls the handler makes is the number the loop
makes. -/
theorem handleText_primaryCalls (ps : List ProviderOutcome) (g : Bool) (gr : Option String)
    (role lang time : String) :
    (handleText ps g gr role lang time).primaryCalls = (runPrimaries ps).2 := rfl

/-- Counterexample to claim C7 as stated: an empty message is routed to the
normal AI chat path (nothing short-circuits before the provider loop), and
with all five endpoints failing the handler still performs five provider
calls and replies with the default reply — there is no fixed
"nothing to respond to" result. -/
theorem C7_counterexample :
    routeText false "" = Route.aiChat ∧
    (handleText [ProviderOutcome.err, ProviderOutcome.err, ProviderOutcome.err,
      ProviderOutcome.err, ProviderOutcome.err] false none
      "Brain Master" "en" "12:00").primaryCalls = 5 ∧
    (handleText [ProviderOutcome.err, ProviderOutcome.err, ProviderOutcome.err,
      ProviderOutcome.err, ProviderOutcome.err] false none
      "Brain Master" "en" "12:00").finalText = defaultReply := by
  refine ⟨by decide, by decide, by decide⟩

/-- Claim C7 (amended): empty raw text is not special-cased.  An empty
message is not a command, so it takes the normal AI chat route, and the
provider loop then invokes at least one provider whenever the endpoint list
is non-empty. -/
theorem C7_empty_text_not_short_circuited (ps : List ProviderOutcome) (g : Bool)
    (gr : Option String) (role lang time : String) (h : ps ≠ []) :
    routeText false "" = Route.aiChat ∧
    1 ≤ (handleText ps g gr role lang time).primaryCalls := by
  refine ⟨rfl, ?_⟩
  rw [handleText_primaryCalls]
  cases ps with
  | nil => exact absurd rfl h
  | cons o os =>
    cases ho : attemptResult o <;> simp [runPrimaries, ho]

/-- Witness for `C7_empty_text_not_short_circuited` with a single failing
provider. -/
theorem C7_witness :
    ([ProviderOutcome.err] ≠ ([] : List ProviderOutcome)) ∧
    (routeText false "" = Route.aiChat ∧
      1 ≤ (handleText [ProviderOutcome.err] false none "Brain Master" "en" "12:00").primaryCalls) :=
  ⟨by decide,
    C7_empty_text_not_short_circuited [ProviderOutcome.err] false none
      "Brain Master" "en" "12:00" (by decide)⟩

/-! ## `chunkArray` (claim C9) -/

/-- `chunkGo` on the empty list is empty, for any fuel. -/
theorem chunkGo_nil {α : Type} (k n : Nat) : chunkGo k n ([] : List α) = [] := by
  cases n <;> rfl

/-- Concatenating the chunks recovers the array (fuel at least the
length). -/
theorem chunkGo_flatten {α : Type} (k : Nat) (hk : 0 < k) :
    ∀ n (l : List α), l.length ≤ n → (chunkGo k n l).flatten = l := by
  intro n
  induction n with
  | zero =>
    intro l hl
    have : l = [] := List.eq_nil_of_length_eq_zero (Nat.le_zero.mp hl)
    subst this
    rfl
  | succ n ih =>
    intro l hl
    cases l with
    | nil => rfl
    | cons a l =>
      rw [chunkGo, List.flatten_cons, ih _ ?_]
      · exact List.take_append_drop k (a :: l)
      · have hd : (List.drop k (a :: l)).length = (a :: l).length - k :=
          List.length_drop k (a :: l)
        simp only [List.length_cons] at hd hl
        omega

/-- Every chunk is non-empty and no longer than the chunk size. -/
theorem chunkGo_mem {α : Type} (k : Nat) (hk : 0 < k) :
    ∀ n (l : List α) c, l.length ≤ n → c ∈ chunkGo k n l → c ≠ [] ∧ c.length ≤ k := by
  intro n
  induction n with
  | zero =>
    intro l c hl hc
    have : l = [] := List.eq_nil_of_length_eq_zero (Nat.le_zero.mp hl)
    subst this
    simp [chunkGo_nil] at hc
  | succ n ih =>
    intro l c hl hc
    cases l with
    | nil => simp [chunkGo_nil] at hc
    | cons a l =>
      rw [chunkGo] at hc
      rcases List.mem_cons.mp hc with hc | hc
      · subst hc
        obtain ⟨m, hm⟩ : ∃ m, k = m + 1 := ⟨k - 1, by omega⟩
        constructor
        · rw [hm, List.take_succ_cons]
          exact List.cons_ne_nil _ _
        · rw [List.length_take]
          exact Nat.min_le_left _ _
      · refine ih _ c ?_ hc
        have hd : (List.drop k (a :: l)).length = (a :: l).length - k :=
          List.length_drop k (a :: l)
        simp only [List.length_cons] at hd hl
        omega

/-- Every chunk before the last has length exactly the chunk size. -/
theorem chunkGo_full {α : Type} (k : Nat) (hk : 0 < k) :
    ∀ n (l : List α) i, l.length ≤ n → i + 1 < (chunkGo k n l).length →
      ((chunkGo k n l).getD i []).length = k := by
  intro n
  induction n with
  | zero =>
    intro l i hl hi
    have : l = [] := List.eq_nil_of_length_eq_zero (Nat.le_zero.mp hl)
    subst this
    simp [chunkGo_nil] at hi
  | succ n ih =>
    intro l i hl hi
    cases l with
    | nil => simp [chunkGo_nil] at hi
    | cons a l =>
      rw [chunkGo] at hi ⊢
      cases i with
      | zero =>
        rw [List.getD_cons_zero]
        have hrest : chunkGo k n ((a :: l).drop k) ≠ [] := by
          intro hnil
          rw [List.length_cons, hnil] at hi
          simp at hi
        have hdrop : (a :: l).drop k ≠ [] := by
          intro hnil
          rw [hnil, chunkGo_nil] at hrest
          exact hrest rfl
        have hklt : k < (a :: l).length := by
          by_contra hle
          exact hdrop (List.drop_eq_nil_iff.mpr (Nat.le_of_not_lt hle))
        have := List.length_take k (a :: l)
        simp only [this]
        omega
      | succ i =>
        rw [List.getD_cons_succ]
        refine ih _ i ?_ ?_
        · have hd : (List.drop k (a :: l)).length = (a :: l).length - k :=
            List.length_drop k (a :: l)
          simp only [List.length_cons] at hd hl
          omega
        · rw [List.length_cons] at hi
          omega

/-- Claim C9: for every array and positive chunk size, the chunks
concatenate back to the array in order, every chunk is non-empty and of
length at most the chunk size, and every chunk except possibly the last has
length exactly the chunk size. -/
theorem C9_chunkArray_spec {α : Type} (arr : List α) (k : Nat) (hk : 0 < k) :
    (chunkArray arr k).flatten = arr ∧
    (∀ c ∈ chunkArray arr k, c ≠ [] ∧ c.length ≤ k) ∧
    (∀ i, i + 1 < (chunkArray arr k).length → ((chunkArray arr k).getD i []).length = k) := by
  refine ⟨chunkGo_flatten k hk _ _ le_rfl,
    fun c hc => chunkGo_mem k hk _ _ c le_rfl hc,
    fun i hi => chunkGo_full k hk _ _ i le_rfl hi⟩

/-- Witness for `C9_chunkArray_spec` at a five-element array and chunk size
two. -/
theorem C9_witness :
    0 < 2 ∧ (chunkArray [1, 2, 3, 4, 5] 2).flatten = [1, 2, 3, 4, 5] :=
  ⟨by decide, (C9_chunkArray_spec [1, 2, 3, 4, 5] 2 (by decide)).1⟩

/-! ## The admin system (claim C10) -/

/-- Appending a fresh record behind a store that lacks the key makes it the
lookup result. -/
theorem lookupUser_append_self (us : Users) (key : String) (rec : UserRec)
    (h : lookupUser us key = none) : lookupUser (us ++ [(key, rec)]) key = some rec := by
  induction us with
  | nil => simp [lookupUser]
  | cons p us ih =>
    obtain ⟨k, v⟩ := p
    rw [lookupUser] at h
    rw [List.cons_append, lookupUser]
    by_cases hk : (k == key) = true
    · rw [if_pos hk] at h
      exact absurd h (by simp)
    · rw [if_neg hk] at h ⊢
      exact ih h

/-- `setAdmin` on a cons, unfolded one step. -/
theorem setAdmin_cons (k : String) (v : UserRec) (us : Users) (key : String) (b : Bool) :
    setAdmin ((k, v) :: us) key b =
      (if k == key then (k, { v with isAdmin := b }) else (k, v)) :: setAdmin us key b := rfl

/-- Updating the `isAdmin` flag under a present key updates exactly that
record for lookups of the key. -/
theorem lookupUser_setAdmin_self (us : Users) (key : String) (b : Bool) (u : UserRec)
    (h : lookupUser us key = some u) :
    lookupUser (setAdmin us key b) key = some { u with isAdmin := b } := by
  induction us with
  | nil => simp [lookupUser] at h
  | cons p us ih =>
    obtain ⟨k, v⟩ := p
    rw [lookupUser] at h
    rw [setAdmin_cons]
    by_cases hk : (k == key) = true
    · rw [if_pos hk] at h ⊢
      have hv : v = u := by injection h
      subst hv
      rw [lookupUser, if_pos hk]
    · rw [if_neg hk] at h ⊢
      rw [lookupUser, if_neg hk]
      exact ih h

/-- Claim C10: the primary admin's privilege is preserved by every
admin-management operation — demoting the primary admin always fails and
leaves the store untouched regardless of the caller; promote and demote by
a non-primary caller fail and leave the store untouched; promote of an
absent or already-admin target and demote of an absent or non-admin target
fail and leave the store untouched; and after `initializeAdminSystem` the
primary admin's `isAdmin` flag is true. -/
theorem C10_primary_admin_protected :
    (∀ (us : Users) (caller : Int),
      (demoteAdmin us RAYBEN_ID caller).2.success = false ∧
      (demoteAdmin us RAYBEN_ID caller).1 = us) ∧
    (∀ (us : Users) (target caller : Int), isRayBen caller = false →
      (promoteToAdmin us target caller).2.success = false ∧
      (promoteToAdmin us target caller).1 = us ∧
      (demoteAdmin us target caller).2.success = false ∧
      (demoteAdmin us target caller).1 = us) ∧
    (∀ (us : Users) (target caller : Int), lookupUser us (intKey target) = none →
      (promoteToAdmin us target caller).2.success = false ∧
      (promoteToAdmin us target caller).1 = us ∧
      (demoteAdmin us target caller).2.success = false ∧
      (demoteAdmin us target caller).1 = us) ∧
    (∀ (us : Users) (target caller : Int) (u : UserRec),
      lookupUser us (intKey target) = some u →
      (u.isAdmin = true →
        (promoteToAdmin us target caller).2.success = false ∧
        (promoteToAdmin us target caller).1 = us) ∧
      (u.isAdmin = false →
        (demoteAdmin us target caller).2.success = false ∧
        (demoteAdmin us target caller).1 = us)) ∧
    (∀ (us : Users) (now : String),
      isAdminIn (initializeAdminSystem us now) RAYBEN_ID = true) := by
  refine ⟨?_, ?_, ?_, ?_, ?_⟩
  · intro us caller
    by_cases hc : isRayBen caller
    · have hcc : caller = RAYBEN_ID := by
        simpa [isRayBen] using hc
      subst hcc
      simp [demoteAdmin, isRayBen]
    · simp [demoteAdmin, hc]
  · intro us target caller hc
    refine ⟨?_, ?_, ?_, ?_⟩ <;> simp [promoteToAdmin, demoteAdmin, hc]
  · intro us target caller hl
    by_cases hc : isRayBen caller
    · by_cases ht : isRayBen target
      · simp [promoteToAdmin, demoteAdmin, hc, ht, hl]
      · simp [promoteToAdmin, demoteAdmin, hc, ht, hl]
    · simp [promoteToAdmin, demoteAdmin, hc, hl]
  · intro us target caller u hl
    constructor
    · intro hu
      by_cases hc : isRayBen caller
      · simp [promoteToAdmin, hc, hl, hu]
      · simp [promoteToAdmin, hc]
    · intro hu
      by_cases hc : isRayBen caller
      · by_cases ht : isRayBen target
        · simp [demoteAdmin, hc, ht]
        · simp [demoteAdmin, hc, ht, hl, hu]
      · simp [demoteAdmin, hc]
  · intro us now
    rw [initializeAdminSystem]
    cases hl : lookupUser us (intKey RAYBEN_ID) with
    | none =>
      rw [isAdminIn, setUser, hl, lookupUser_append_self us _ _ hl]
      rfl
    | some u =>
      by_cases hu : u.isAdmin
      · simp [isAdminIn, hu, hl]
      · have := lookupUser_setAdmin_self us (intKey RAYBEN_ID) true u hl
        simp [isAdminIn, hu, this]

/-- Witness for `C10_primary_admin_protected` at a concrete store and
concrete callers. -/
theorem C10_witness :
    isRayBen 12345 = false ∧
    (promoteToAdmin [] 12345 12345).2.success = false ∧
    (demoteAdmin [] RAYBEN_ID 12345).1 = ([] : Users) ∧
    isAdminIn (initializeAdminSystem [] "2024-01-01T00:00:00.000Z") RAYBEN_ID = true := by
  refine ⟨by decide, (C10_primary_admin_protected.2.1 [] 12345 12345 (by decide)).1,
    (C10_primary_admin_protected.1 [] 12345).2,
    C10_primary_admin_protected.2.2.2.2 [] "2024-01-01T00:00:00.000Z"⟩

end ProfTechMVAI
